import Mathlib

/-!
Shallow embedding of the `$hortHand` DOM convenience library
(`src/shorthand.js`) and verification of its specification claims.

The host document platform (selector matching, computed style, geometry,
event firing) is external to the library; it is modelled here by explicit
function parameters (`matches`, `hostClosest`, `Host`, ...).  Everything the
library itself does — arity dispatch, attribute/class/style bookkeeping,
loose-equality tests, list aggregation — is translated directly from the
source.
-/

namespace Shorthand

/-! ### JavaScript values

The library receives arbitrary JavaScript values as method arguments; the
fragment relevant to the spec claims is strings, numbers (modelled as
integers), booleans, `null`, `undefined` and plain objects of string pairs. -/

inductive JVal where
  | jstr (s : String)
  | jnum (n : Int)
  | jbool (b : Bool)
  | jnull
  | jundef
  | jobj (pairs : List (String × String))
  deriving DecidableEq, Repr

/-- JavaScript `ToString` coercion, as applied by `setAttribute` and other
DOM sinks, restricted to the modelled value fragment. -/
def jvalToString : JVal → String
  | .jstr s => s
  | .jnum n => toString n
  | .jbool b => if b then "true" else "false"
  | .jnull => "null"
  | .jundef => "undefined"
  | .jobj _ => "[object Object]"

/-- JavaScript loose equality `v == null`: true exactly for `null` and
`undefined`. -/
def jsLooseNull : JVal → Bool
  | .jnull => true
  | .jundef => true
  | _ => false

/-- JavaScript loose equality `v == ''`: a string is compared directly;
a number is compared with `ToNumber('') = 0`; a boolean is first coerced
to a number (`false → 0`, `true → 1`) and then compared with `0`;
`null`, `undefined` and objects are not loosely equal to `''`. -/
def jsLooseEmptyStr : JVal → Bool
  | .jstr s => s = ""
  | .jnum n => n = 0
  | .jbool b => b = false
  | .jnull => false
  | .jundef => false
  | .jobj _ => false

/-- JavaScript truthiness of a value. -/
def truthy : JVal → Bool
  | .jstr s => s ≠ ""
  | .jnum n => n ≠ 0
  | .jbool b => b
  | .jnull => false
  | .jundef => false
  | .jobj _ => true

/-! ### Association lists for attribute and inline-style storage -/

/-- Look up the first binding of a key. -/
def alGet (l : List (String × String)) (k : String) : Option String :=
  match l with
  | [] => none
  | (k', v) :: rest => if k' = k then some v else alGet rest k

/-- Replace the first binding of a key, or add one at the end. -/
def alSet (l : List (String × String)) (k v : String) : List (String × String) :=
  match l with
  | [] => [(k, v)]
  | (k', v') :: rest => if k' = k then (k, v) :: rest else (k', v') :: alSet rest k v

/-- Remove every binding of a key. -/
def alRemove (l : List (String × String)) (k : String) : List (String × String) :=
  l.filter (fun p => p.1 != k)

/-! ### Element handles

An element handle carries the per-node state the library touches:
attributes, inline style properties, form value, inner markup, inner text
and the class list.  Tree structure (parent/child links) is modelled
separately for the insertion methods. -/

structure Elem where
  attrs : List (String × String)
  style : List (String × String)
  value : String
  innerHTML : String
  innerText : String
  classList : List String
  deriving DecidableEq, Repr

def getAttribute (e : Elem) (k : String) : Option String :=
  alGet e.attrs k

def setAttribute (e : Elem) (k v : String) : Elem :=
  { e with attrs := alSet e.attrs k v }

def removeAttribute (e : Elem) (k : String) : Elem :=
  { e with attrs := alRemove e.attrs k }

def hasAttribute (e : Elem) (k : String) : Bool :=
  (getAttribute e k).isSome

/-- CSSOM `style.getPropertyValue`: the empty string when the property is
not set inline. -/
def styleGetProperty (e : Elem) (k : String) : String :=
  (alGet e.style k).getD ""

def styleSetProperty (e : Elem) (k v : String) : Elem :=
  { e with style := alSet e.style k v }

/-- A default element with no attributes, styles or classes. -/
def elem0 : Elem :=
  { attrs := [], style := [], value := "", innerHTML := "", innerText := "", classList := [] }

/-! ### Method results and errors -/

inductive Ret where
  | rstr (s : String)
  | rnull
  | rundef
  | rcoll (c : List Elem)
  | rnum (n : Int)
  | rpair (top left : Int)
  deriving DecidableEq, Repr

inductive JsErr where
  | typeError
  | errorMsg (s : String)
  deriving DecidableEq, Repr

/-- Modelled from the spec (§7, §8): the "defined null-like/empty sentinel
value" an empty-Collection query is claimed to return — `null`, `undefined`
or the empty string.  Used only to compare the spec's wording with what the
source returns. -/
def specNullLike : Ret → Bool
  | .rnull => true
  | .rundef => true
  | .rstr s => s = ""
  | _ => false

/-! ### `attr` — query and mutate, with the source's loose-equality removal
test (`arguments[1] == '' || arguments[1] == null`).  With one argument the
source returns the first element's attribute via an early `return` inside a
loop; when the collection is empty the loop body never runs and control
falls through to `return this`. -/

def retOfAttr : Option String → Ret
  | some s => .rstr s
  | none => .rnull

def attrMethod (self : List Elem) (args : List JVal) :
    Except JsErr (List Elem × Ret) :=
  match args with
  | [a0] =>
    match self with
    | e :: _ => .ok (self, retOfAttr (getAttribute e (jvalToString a0)))
    | [] => .ok (self, .rcoll self)
  | [a0, a1] =>
    if jsLooseEmptyStr a1 || jsLooseNull a1 then
      let self' := self.map (fun e => removeAttribute e (jvalToString a0))
      .ok (self', .rcoll self')
    else
      let self' := self.map (fun e => setAttribute e (jvalToString a0) (jvalToString a1))
      .ok (self', .rcoll self')
  | _ => .error (.errorMsg "You need to specify arguments for .attr()")

/-! ### `val` — set every element's value, or return the first element's
value; on an empty collection the query loop never runs and the method
falls through to `return this`. -/

def valMethod (self : List Elem) (args : List JVal) : List Elem × Ret :=
  match args with
  | [] =>
    match self with
    | e :: _ => (self, .rstr e.value)
    | [] => (self, .rcoll self)
  | v :: _ =>
    let self' := self.map (fun e => { e with value := jvalToString v })
    (self', .rcoll self')

/-- CSS query helper: the source returns `getPropertyValue(key) || null`. -/
def jsOrNull (s : String) : Ret :=
  if s = "" then .rnull else .rstr s

/-! ### `css` — one object argument sets every pair (note `typeof null`
is `'object'` in JavaScript, so a `null` argument takes the object branch
and iterates zero keys); one string argument queries the first element;
two arguments set a single property; any other shape falls off the end of
the method and yields `undefined`. -/

def cssMethod (self : List Elem) (args : List JVal) : List Elem × Ret :=
  match args with
  | [a0] =>
    match a0 with
    | .jobj pairs =>
      let self' := pairs.foldl (fun acc kv =>
        acc.map (fun e => styleSetProperty e kv.1 kv.2)) self
      (self', .rcoll self')
    | .jnull => (self, .rcoll self)
    | .jstr s =>
      match self with
      | e :: _ => (self, jsOrNull (styleGetProperty e s))
      | [] => (self, .rnull)
    | _ => (self, .rundef)
  | [a0, a1] =>
    match a0 with
    | .jstr s =>
      let self' := self.map (fun e => styleSetProperty e s (jvalToString a1))
      (self', .rcoll self')
    | _ => (self, .rcoll self)
  | _ => (self, .rundef)

/-! ### Host-delegated reads: computed style and geometry -/

structure Host where
  computedStyle : Elem → String → String
  widthPx : Elem → Int
  heightPx : Elem → Int
  rectTop : Elem → Int
  rectLeft : Elem → Int
  scrollTop : Int
  scrollLeft : Int
  offsetTop : Elem → Int
  offsetLeft : Elem → Int

/-- `style(cssKey)`: computed style of the first element, `null` when the
collection is empty. -/
def styleMethod (host : Host) (self : List Elem) (k : String) : Ret :=
  match self with
  | e :: _ => .rstr (host.computedStyle e k)
  | [] => .rnull

def widthMethod (host : Host) (self : List Elem) : Ret :=
  match self with
  | e :: _ => .rnum (host.widthPx e)
  | [] => .rnull

def heightMethod (host : Host) (self : List Elem) : Ret :=
  match self with
  | e :: _ => .rnum (host.heightPx e)
  | [] => .rnull

def offsetMethod (host : Host) (self : List Elem) : Ret :=
  match self with
  | e :: _ => .rpair (host.rectTop e + host.scrollTop) (host.rectLeft e + host.scrollLeft)
  | [] => .rnull

def positionMethod (host : Host) (self : List Elem) : Ret :=
  match self with
  | e :: _ => .rpair (host.offsetTop e) (host.offsetLeft e)
  | [] => .rnull

/-! ### `html` and `text` — query mode joins every handle's content with
the empty separator; mutate mode writes every handle. -/

def htmlMethod (self : List Elem) (args : List JVal) : List Elem × Ret :=
  match args with
  | [] => (self, .rstr (String.join (self.map (fun e => e.innerHTML))))
  | v :: _ =>
    let self' := self.map (fun e => { e with innerHTML := jvalToString v })
    (self', .rcoll self')

def textMethod (self : List Elem) (args : List JVal) : List Elem × Ret :=
  match args with
  | [] => (self, .rstr (String.join (self.map (fun e => e.innerText))))
  | v :: _ =>
    let self' := self.map (fun e => { e with innerText := jvalToString v })
    (self', .rcoll self')

/-! ### `toggleClass` — translated with the source's nested arity tests
intact: the two-argument branch immediately re-tests `arguments.length == 1`,
which can never hold there, so the forced-state logic (which reads
`arguments[2]`) is unreachable. -/

def toggleClassMethod (self : List Elem) (args : List JVal) : List Elem :=
  if args.length = 1 then
    let className := jvalToString (args.headD .jundef)
    self.map (fun e =>
      if e.classList.contains className then
        { e with classList := e.classList.filter (fun c => c != className) }
      else
        { e with classList := e.classList ++ [className] })
  else if args.length = 2 then
    if args.length = 1 then
      let className := jvalToString (args.headD .jundef)
      self.map (fun e =>
        if ¬ truthy (args.getD 2 .jundef) then
          { e with classList := e.classList.filter (fun c => c != className) }
        else
          { e with classList := e.classList ++ [className] })
    else self
  else self

/-! ### `hide` / `show` — shadow display state kept in the
`data-temp-display` attribute on the element itself. -/

/-- JavaScript `v || ''` applied to a `getAttribute` result: `null` and the
empty string are falsy and give `''`. -/
def jsOrEmpty : Option String → String
  | some s => if s = "" then "" else s
  | none => ""

def hideOne (e : Elem) : Elem :=
  let e1 :=
    if hasAttribute e "data-temp-display" then e
    else setAttribute e "data-temp-display" (styleGetProperty e "display")
  styleSetProperty e1 "display" "none"

def showOne (e : Elem) : Elem :=
  let e1 := styleSetProperty e "display" (jsOrEmpty (getAttribute e "data-temp-display"))
  removeAttribute e1 "data-temp-display"

def hideMethod (self : List Elem) : List Elem := self.map hideOne

def showMethod (self : List Elem) : List Elem := self.map showOne

/-! ### `is` / `isAny` — selector matching is host-delegated. -/

def isMethod (hostMatches : Elem → String → Bool) (self : List Elem) (q : String) : Bool :=
  self.all (fun e => hostMatches e q)

def isAnyMethod (hostMatches : Elem → String → Bool) (self : List Elem) (q : String) : Bool :=
  self.any (fun e => hostMatches e q)

/-! ### `closest` — the source spreads `elm.closest(query)` into `push`.
The host's nearest-ancestor-or-self lookup returns an `Element` or `null`;
neither carries `Symbol.iterator`, so JavaScript spread syntax throws a
`TypeError` on both. -/

/-- The value `elm.closest(query)` evaluates to, as seen by spread syntax. -/
inductive SpreadVal where
  | selem (e : Elem)
  | snull
  deriving Repr

/-- Spread semantics: an `Element` object is not iterable, and `null` is
not spreadable either — both raise a `TypeError`. -/
def spreadVal : SpreadVal → Except JsErr (List Elem)
  | .selem _ => .error .typeError
  | .snull => .error .typeError

def closestVal (hostClosest : Elem → String → Option Elem) (e : Elem) (q : String) :
    SpreadVal :=
  match hostClosest e q with
  | some m => .selem m
  | none => .snull

def closestGo (hostClosest : Elem → String → Option Elem) (q : String)
    (acc : List Elem) : List Elem → Except JsErr (List Elem)
  | [] => .ok acc
  | e :: rest =>
    match spreadVal (closestVal hostClosest e q) with
    | .error err => .error err
    | .ok xs => closestGo hostClosest q (acc ++ xs) rest

def closestMethod (hostClosest : Elem → String → Option Elem)
    (self : List Elem) (q : String) : Except JsErr (List Elem) :=
  closestGo hostClosest q [] self

/-- A host nearest-ancestor lookup that never finds a match. -/
def hcNone : Elem → String → Option Elem := fun _ _ => none

/-- A host nearest-ancestor lookup that always returns the queried node
itself (every node matches the selector). -/
def hcSelf : Elem → String → Option Elem := fun e _ => some e

/-! ### `on` — event listeners, with the delegation branch. -/

structure Event where
  target : Elem
  deriving Repr

/-- One callback invocation: which callback fired, the raw native event it
received, and the collection passed as its second argument. -/
structure Invocation where
  cb : Nat
  ev : Event
  coll : List Elem
  deriving Repr

inductive OnArg where
  | ostr (s : String)
  | ofun (f : Nat)
  deriving Repr

def onArgToStr : OnArg → String
  | .ostr s => s
  | .ofun _ => "function"

def onArgToCb : OnArg → Nat
  | .ofun f => f
  | .ostr _ => 0

def onArgTruthy : OnArg → Bool
  | .ostr s => s ≠ ""
  | .ofun _ => true

def lastOf (a : OnArg) : List OnArg → OnArg
  | [] => a
  | b :: bs => lastOf b bs

/-- The listener closure attached to one handle: given a fired event it
either returns the callback invocation the source performs, or `none` when
the source skips the callback. -/
def mkListener (hostClosest : Elem → String → Option Elem) (elm : Elem)
    (eventTarget : Option OnArg) (cb : Nat) (e : Event) : Option Invocation :=
  match eventTarget with
  | some tgt =>
    if onArgTruthy tgt then
      match hostClosest e.target (onArgToStr tgt) with
      | some m => some { cb := cb, ev := e, coll := [m] }
      | none => none
    else some { cb := cb, ev := e, coll := [elm] }
  | none => some { cb := cb, ev := e, coll := [elm] }

/-- The `on` method: with fewer than two arguments it throws; otherwise it
attaches one listener per handle (`eventTarget` is `arguments[1]` only when
more than two arguments were given, else `null`; the callback is the last
argument) and returns the collection. -/
def onMethod (hostClosest : Elem → String → Option Elem) (self : List Elem)
    (args : List OnArg) :
    Except JsErr (List Elem × List (Elem × (Event → Option Invocation))) :=
  match args with
  | a0 :: a1 :: rest =>
    let _eventName := onArgToStr a0
    let eventTarget : Option OnArg := if rest.length > 0 then some a1 else none
    let eventCallback := onArgToCb (lastOf a1 rest)
    .ok (self, self.map (fun elm => (elm, mkListener hostClosest elm eventTarget eventCallback)))
  | _ => .error (.errorMsg "You need at least two parameters for an event listener.")

/-! ### `append` / `prepend` — document tree model.

Nodes are identified by natural numbers; the document records each node's
parent.  `appendChild` and `insertBefore` both re-parent the moved node to
the receiving element (detaching it from its previous parent); sibling
order inside a parent is not needed by the claims and is not modelled. -/

structure Dom where
  parentOf : Nat → Option Nat

def domEmpty : Dom := { parentOf := fun _ => none }

def appendChild (d : Dom) (parent child : Nat) : Dom :=
  { parentOf := fun n => if n = child then some parent else d.parentOf n }

def insertBeforeFirst (d : Dom) (parent child : Nat) : Dom :=
  { parentOf := fun n => if n = child then some parent else d.parentOf n }

/-- One variadic argument to `append`/`prepend`: a markup string (fragment
parsed by the host), an existing collection (flattened), or a bare node. -/
inductive AppendArg where
  | htmlStr (s : String)
  | coll (xs : List Nat)
  | node (n : Nat)

/-- The normalization loop at the top of `append`/`prepend`. -/
def normalizeArgs (parse : String → List Nat) : List AppendArg → List Nat
  | [] => []
  | .htmlStr s :: rest => parse s ++ normalizeArgs parse rest
  | .coll xs :: rest => xs ++ normalizeArgs parse rest
  | .node n :: rest => n :: normalizeArgs parse rest

/-- `append`: for each normalized node in turn, `appendChild` it to every
handle of the receiving collection in order. -/
def appendMethod (parse : String → List Nat) (self : List Nat)
    (args : List AppendArg) (d : Dom) : Dom :=
  (normalizeArgs parse args).foldl
    (fun d' a => self.foldl (fun d'' t => appendChild d'' t a) d') d

/-- `prepend`: for each normalized node in turn, `insertBefore` it ahead of
the first child of every handle of the receiving collection in order. -/
def prependMethod (parse : String → List Nat) (self : List Nat)
    (args : List AppendArg) (d : Dom) : Dom :=
  (normalizeArgs parse args).foldl
    (fun d' a => self.foldl (fun d'' t => insertBeforeFirst d'' t a) d') d

/-! ### Entry dispatcher `$H` -/

inductive HArg where
  | hstr (s : String)
  | hfn (f : Nat)
  | hother (n : Nat)
  deriving DecidableEq, Repr

inductive HRes where
  | hcoll (xs : List Nat)
  | hthis
  | hundef
  | herror (msg : String)
  deriving DecidableEq, Repr

/-- The entry dispatcher: zero arguments return the calling context; one
string argument is a selector query or (when it starts with `<` after
trimming) a fragment parse; one function argument registers a
content-loaded callback with the host (a side effect) and the dispatcher
returns `undefined`; any other single value is wrapped as a one-element
collection.  Two or more arguments match no branch and the function falls
off its end, returning `undefined`. -/
def dollarH (query : String → List Nat) (parse : String → List Nat)
    (args : List HArg) : HRes :=
  if args.length = 0 then .hthis
  else if args.length = 1 then
    match args.headD (.hother 0) with
    | .hstr s =>
      if ¬ (s.trim.startsWith "<") then .hcoll (query s)
      else .hcoll (parse s)
    | .hfn _ => .hundef
    | .hother n => .hcoll [n]
  else .hundef

def isErrorRes : HRes → Bool
  | .herror _ => true
  | _ => false

/-! ### Concrete instances used to evaluate the theorems -/

/-- An element with an inline `display: flex` and no shadow marker. -/
def elemDisp : Elem := { elem0 with style := [("display", "flex")] }

/-- An element carrying an attribute `k` with value `old`. -/
def elemK : Elem := { elem0 with attrs := [("k", "old")] }

/-- A host selector matcher that matches nothing. -/
def hostMatchesFalse : Elem → String → Bool := fun _ _ => false

/-- A host geometry/computed-style provider returning fixed values. -/
def host0 : Host :=
  { computedStyle := fun _ _ => "", widthPx := fun _ => 0, heightPx := fun _ => 0,
    rectTop := fun _ => 0, rectLeft := fun _ => 0, scrollTop := 0, scrollLeft := 0,
    offsetTop := fun _ => 0, offsetLeft := fun _ => 0 }

/-! ## Theorems -/

/-! ### Association-list lemmas -/

theorem alGet_alSet_self (l : List (String × String)) (k v : String) :
    alGet (alSet l k v) k = some v := by
  induction l with
  | nil => simp [alSet, alGet]
  | cons p rest ih =>
    by_cases h : p.1 = k
    · simp [alSet, alGet, h]
    · simp [alSet, alGet, h, ih]

theorem alGet_alRemove_self (l : List (String × String)) (k : String) :
    alGet (alRemove l k) k = none := by
  induction l with
  | nil => simp [alRemove, alGet]
  | cons p rest ih =>
    by_cases h : p.1 = k
    · have hf : alRemove (p :: rest) k = alRemove rest k := by
        simp [alRemove, List.filter_cons, h]
      rw [hf]; exact ih
    · have hf : alRemove (p :: rest) k = p :: alRemove rest k := by
        simp [alRemove, List.filter_cons, h]
      rw [hf]; simp [alGet, h, ih]

/-! ### C1: hide-hide-show round trip -/

/-- Per-element core of the hide/hide/show round trip. -/
theorem hide_hide_show_elem (e : Elem)
    (h : hasAttribute e "data-temp-display" = false) :
    styleGetProperty (showOne (hideOne (hideOne e))) "display"
      = styleGetProperty e "display"
    ∧ hasAttribute (showOne (hideOne (hideOne e))) "data-temp-display" = false
    ∧ getAttribute (hideOne (hideOne e)) "data-temp-display"
      = getAttribute (hideOne e) "data-temp-display" := by
  have h1 : hasAttribute (setAttribute e "data-temp-display" (styleGetProperty e "display"))
      "data-temp-display" = true := by
    simp [hasAttribute, getAttribute, setAttribute, alGet_alSet_self]
  refine ⟨?_, ?_, ?_⟩
  · simp only [hideOne, showOne, h, if_false, Bool.false_eq_true]
    simp only [hasAttribute, getAttribute, setAttribute, styleSetProperty,
      styleGetProperty, removeAttribute] at *
    simp [alGet_alSet_self, jsOrEmpty]
    by_cases hd : (alGet e.style "display").getD "" = "" <;> simp [hd]
  · simp only [hideOne, showOne, h, if_false, Bool.false_eq_true]
    simp only [hasAttribute, getAttribute, setAttribute, styleSetProperty,
      styleGetProperty, removeAttribute] at *
    simp [alGet_alSet_self, alGet_alRemove_self]
  · simp only [hideOne, h, if_false, Bool.false_eq_true]
    simp only [hasAttribute, getAttribute, setAttribute, styleSetProperty,
      styleGetProperty] at *
    simp [alGet_alSet_self]

/-- C1: for every element handle with no shadow marker recorded, calling
`hide()` twice in a row and then `show()` restores the element's `display`
style to its original pre-hide value (not an intermediate `none`), clears
the shadow marker, and the second `hide()` does not overwrite the
shadow-recorded display value. -/
theorem C1_hide_twice_then_show (self : List Elem) (i : Nat) (hi : i < self.length)
    (h : hasAttribute self[i] "data-temp-display" = false) :
    ∃ hj : i < (showMethod (hideMethod (hideMethod self))).length,
      styleGetProperty ((showMethod (hideMethod (hideMethod self))).get ⟨i, hj⟩) "display"
        = styleGetProperty self[i] "display"
      ∧ hasAttribute ((showMethod (hideMethod (hideMethod self))).get ⟨i, hj⟩)
          "data-temp-display" = false
      ∧ getAttribute (hideOne (hideOne self[i])) "data-temp-display"
        = getAttribute (hideOne self[i]) "data-temp-display" := by
  have hlen : (showMethod (hideMethod (hideMethod self))).length = self.length := by
    simp [showMethod, hideMethod]
  refine ⟨by omega, ?_⟩
  have hget : (showMethod (hideMethod (hideMethod self))).get ⟨i, by omega⟩
      = showOne (hideOne (hideOne self[i])) := by
    simp [showMethod, hideMethod]
  rw [hget]
  obtain ⟨h1, h2, h3⟩ := hide_hide_show_elem self[i] h
  exact ⟨h1, h2, h3⟩

/-- Witness for C1 at a concrete element with inline `display: flex`. -/
theorem C1_wit :
    ∃ hj : 0 < (showMethod (hideMethod (hideMethod [elemDisp]))).length,
      styleGetProperty ((showMethod (hideMethod (hideMethod [elemDisp]))).get ⟨0, hj⟩)
          "display"
        = styleGetProperty elemDisp "display"
      ∧ hasAttribute ((showMethod (hideMethod (hideMethod [elemDisp]))).get ⟨0, hj⟩)
          "data-temp-display" = false
      ∧ getAttribute (hideOne (hideOne elemDisp)) "data-temp-display"
        = getAttribute (hideOne elemDisp) "data-temp-display" :=
  C1_hide_twice_then_show [elemDisp] 0 (by decide) (by decide)

/-! ### C2: append/prepend re-parent the same nodes once per target -/

theorem appendChild_parentOf_self (d : Dom) (p c : Nat) :
    (appendChild d p c).parentOf c = some p := by
  simp [appendChild]

theorem appendChild_parentOf_ne (d : Dom) (p c n : Nat) (h : n ≠ c) :
    (appendChild d p c).parentOf n = d.parentOf n := by
  simp [appendChild, h]

/-- Inserting one node into every target in order leaves it parented to the
last target. -/
theorem innerFold_parent (a : Nat) (rest : List Nat) : ∀ (t0 : Nat) (d : Dom),
    ((t0 :: rest).foldl (fun d' t => appendChild d' t a) d).parentOf a
      = some ((t0 :: rest).getLastD 0) := by
  induction rest with
  | nil => intro t0 d; simp [appendChild]
  | cons t1 rest ih =>
    intro t0 d
    rw [List.foldl_cons, ih t1 (appendChild d t0 a)]
    simp [List.getLastD_cons]

/-- Inserting node `a` touches no other node's parent. -/
theorem innerFold_preserve (a m : Nat) (hm : m ≠ a) (self : List Nat) :
    ∀ (d : Dom),
    (self.foldl (fun d' t => appendChild d' t a) d).parentOf m = d.parentOf m := by
  induction self with
  | nil => intro d; rfl
  | cons t rest ih =>
    intro d
    rw [List.foldl_cons, ih]
    simp [appendChild, hm]

/-- The outer loop does not touch the parent of a node it never inserts. -/
theorem outerFold_preserve (self : List Nat) (L : List Nat) : ∀ (d : Dom) (n : Nat),
    n ∉ L →
    (L.foldl (fun d' a => self.foldl (fun d'' t => appendChild d'' t a) d') d).parentOf n
      = d.parentOf n := by
  induction L with
  | nil => intro d n _; rfl
  | cons a rest ih =>
    intro d n hn
    have hna : n ≠ a := fun hna => hn (hna ▸ List.mem_cons_self a rest)
    have hnr : n ∉ rest := fun hr => hn (List.mem_cons_of_mem a hr)
    rw [List.foldl_cons, ih _ n hnr]
    exact innerFold_preserve a n hna self d

/-- Every inserted node ends up parented to the last handle of the
receiving collection. -/
theorem outerFold_parent (self : List Nat) (hself : self ≠ []) (L : List Nat) :
    ∀ (d : Dom) (n : Nat), n ∈ L →
    (L.foldl (fun d' a => self.foldl (fun d'' t => appendChild d'' t a) d') d).parentOf n
      = some (self.getLastD 0) := by
  induction L with
  | nil => intro d n hn; cases hn
  | cons a rest ih =>
    intro d n hn
    by_cases hmem : n ∈ rest
    · rw [List.foldl_cons]; exact ih _ n hmem
    · have hna : n = a := by
        rcases List.mem_cons.mp hn with h | h
        · exact h
        · exact absurd h hmem
      subst hna
      rw [List.foldl_cons, outerFold_preserve self rest _ n hmem]
      obtain ⟨t0, rest0, rfl⟩ : ∃ t0 r, self = t0 :: r := by
        cases self with
        | nil => exact absurd rfl hself
        | cons t0 r => exact ⟨t0, r, rfl⟩
      exact innerFold_parent n rest0 t0 d

/-- `prepend` and `append` act identically on the parent relation: both
re-parent the inserted node to the receiving element. -/
theorem prependMethod_eq_appendMethod (parse : String → List Nat) (self : List Nat)
    (args : List AppendArg) (d : Dom) :
    prependMethod parse self args d = appendMethod parse self args d := rfl

/-- C2: with a nonempty receiving collection, `append` (and `prepend`)
insert the same normalized source nodes once per target in turn without
cloning, so each inserted node's final parent is the last handle of the
collection; nodes outside the inserted set keep their parent. -/
theorem C2_append_last_target (parse : String → List Nat) (self : List Nat)
    (args : List AppendArg) (d : Dom) (n : Nat)
    (h1 : self ≠ []) (h2 : n ∈ normalizeArgs parse args) :
    (appendMethod parse self args d).parentOf n = some (self.getLastD 0)
    ∧ (prependMethod parse self args d).parentOf n = some (self.getLastD 0) := by
  constructor
  · exact outerFold_parent self h1 (normalizeArgs parse args) d n h2
  · rw [prependMethod_eq_appendMethod]
    exact outerFold_parent self h1 (normalizeArgs parse args) d n h2

/-- Witness for C2: appending node 5 to the two-handle collection `[1, 2]`
leaves node 5 parented to handle 2 only. -/
theorem C2_wit :
    (appendMethod (fun _ => []) [1, 2] [AppendArg.node 5] domEmpty).parentOf 5
      = some ([1, 2].getLastD 0)
    ∧ (prependMethod (fun _ => []) [1, 2] [AppendArg.node 5] domEmpty).parentOf 5
      = some ([1, 2].getLastD 0) :=
  C2_append_last_target (fun _ => []) [1, 2] [AppendArg.node 5] domEmpty 5
    (by simp) (by simp [normalizeArgs])

/-! ### C3: query-mode accessors on the empty collection -/

/-- Counterexample to C3 as stated: on a zero-handle collection the
query-mode `attr(key)` call falls through the empty loop to `return this`,
so it returns the collection itself, which is not a null-like/empty
sentinel. -/
theorem C3_cex :
    attrMethod [] [JVal.jstr "src"] = .ok ([], Ret.rcoll [])
    ∧ specNullLike (Ret.rcoll []) = false :=
  ⟨rfl, rfl⟩

/-- C3 amended: on a zero-handle collection no query-mode accessor throws;
`css(key)`, `style(key)`, `html()`, `text()` and the geometry reads return
their null-like/empty sentinels, while `attr(key)` and `val()` instead
return the (empty) collection itself. -/
theorem C3_empty_query_results (host : Host) (k : String) :
    attrMethod [] [JVal.jstr k] = .ok ([], Ret.rcoll [])
    ∧ valMethod [] [] = ([], Ret.rcoll [])
    ∧ cssMethod [] [JVal.jstr k] = ([], Ret.rnull)
    ∧ styleMethod host [] k = Ret.rnull
    ∧ htmlMethod [] [] = ([], Ret.rstr "")
    ∧ textMethod [] [] = ([], Ret.rstr "")
    ∧ widthMethod host [] = Ret.rnull
    ∧ heightMethod host [] = Ret.rnull
    ∧ offsetMethod host [] = Ret.rnull
    ∧ positionMethod host [] = Ret.rnull :=
  ⟨rfl, rfl, rfl, rfl, rfl, rfl, rfl, rfl, rfl, rfl⟩

/-- Witness for C3 amended at a concrete host and key. -/
theorem C3_wit :
    attrMethod [] [JVal.jstr "width"] = .ok ([], Ret.rcoll [])
    ∧ valMethod [] [] = ([], Ret.rcoll [])
    ∧ cssMethod [] [JVal.jstr "width"] = ([], Ret.rnull)
    ∧ styleMethod host0 [] "width" = Ret.rnull
    ∧ htmlMethod [] [] = ([], Ret.rstr "")
    ∧ textMethod [] [] = ([], Ret.rstr "")
    ∧ widthMethod host0 [] = Ret.rnull
    ∧ heightMethod host0 [] = Ret.rnull
    ∧ offsetMethod host0 [] = Ret.rnull
    ∧ positionMethod host0 [] = Ret.rnull :=
  C3_empty_query_results host0 "width"

/-! ### C4: entry dispatcher with two or more arguments -/

/-- Counterexample to C4 as stated: a two-argument invocation of the entry
dispatcher matches no arity branch, falls off the end of the function and
returns `undefined` — it signals no invalid-invocation error. -/
theorem C4_cex :
    dollarH (fun _ => []) (fun _ => []) [HArg.hstr "a", HArg.hstr "b"] = HRes.hundef
    ∧ isErrorRes (dollarH (fun _ => []) (fun _ => []) [HArg.hstr "a", HArg.hstr "b"])
        = false :=
  ⟨rfl, rfl⟩

/-- C4 amended: every invocation of the entry dispatcher with two or more
arguments silently returns `undefined` — it produces no collection and
signals no error. -/
theorem C4_arity_two_plus_undef (query parse : String → List Nat)
    (args : List HArg) (h : 2 ≤ args.length) :
    dollarH query parse args = HRes.hundef := by
  have h0 : ¬ args.length = 0 := by omega
  have h1 : ¬ args.length = 1 := by omega
  simp [dollarH, h0, h1]

/-- Witness for C4 amended at a concrete two-argument invocation. -/
theorem C4_wit :
    dollarH (fun _ => []) (fun _ => []) [HArg.hfn 0, HArg.hfn 1] = HRes.hundef :=
  C4_arity_two_plus_undef (fun _ => []) (fun _ => []) [HArg.hfn 0, HArg.hfn 1]
    (by decide)

/-! ### C5: `closest` spreads a non-iterable host result -/

/-- C5 (code bug): for every nonempty collection, `closest(selector)`
throws a `TypeError` — the source spreads `elm.closest(query)`, which is an
`Element` or `null` and in either case not iterable — while on the empty
collection it returns an empty collection. -/
theorem C5_closest_throws (hostClosest : Elem → String → Option Elem)
    (self : List Elem) (q : String) (h : self ≠ []) :
    closestMethod hostClosest self q = .error JsErr.typeError
    ∧ closestMethod hostClosest [] q = .ok [] := by
  constructor
  · cases self with
    | nil => exact absurd rfl h
    | cons e rest =>
      rcases hcase : hostClosest e q with _ | m <;>
        simp [closestMethod, closestGo, closestVal, spreadVal, hcase]
  · rfl

/-- Witness for C5 at a one-element collection whose host lookup finds a
match (the failure does not depend on whether a match exists). -/
theorem C5_wit :
    closestMethod hcSelf [elem0] "div" = .error JsErr.typeError
    ∧ closestMethod hcSelf [] "div" = .ok [] :=
  C5_closest_throws hcSelf [elem0] "div" (List.cons_ne_nil _ _)

/-! ### C6: three-argument delegation form of `on` -/

/-- C6: the three-argument delegation form `on(eventName, targetSelector,
callback)` attaches one listener per handle and returns the collection;
when an event fires, the callback is invoked with the raw native event and
a one-element collection wrapping the nearest ancestor-or-self of the
event's target matching the selector, and is skipped entirely when no such
ancestor-or-self exists. -/
theorem C6_on_delegation (hostClosest : Elem → String → Option Elem)
    (self : List Elem) (ev sel : String) (cb : Nat) (hsel : sel ≠ "") :
    ∃ listeners,
      onMethod hostClosest self [OnArg.ostr ev, OnArg.ostr sel, OnArg.ofun cb]
        = .ok (self, listeners)
      ∧ listeners.length = self.length
      ∧ ∀ p ∈ listeners, ∀ e : Event,
          (∀ m, hostClosest e.target sel = some m →
            p.2 e = some { cb := cb, ev := e, coll := [m] })
          ∧ (hostClosest e.target sel = none → p.2 e = none) := by
  refine ⟨self.map (fun elm =>
      (elm, mkListener hostClosest elm (some (OnArg.ostr sel)) cb)), rfl, by simp, ?_⟩
  intro p hp e
  obtain ⟨elm, _, rfl⟩ := List.mem_map.mp hp
  constructor
  · intro m hm
    simp [mkListener, onArgTruthy, onArgToStr, hsel, hm]
  · intro hm
    simp [mkListener, onArgTruthy, onArgToStr, hsel, hm]

/-- Witness for C6 at a concrete handle, selector and callback. -/
theorem C6_wit :
    ∃ listeners,
      onMethod hcNone [elem0] [OnArg.ostr "click", OnArg.ostr "button", OnArg.ofun 7]
        = .ok ([elem0], listeners)
      ∧ listeners.length = [elem0].length
      ∧ ∀ p ∈ listeners, ∀ e : Event,
          (∀ m, hcNone e.target "button" = some m →
            p.2 e = some { cb := 7, ev := e, coll := [m] })
          ∧ (hcNone e.target "button" = none → p.2 e = none) :=
  C6_on_delegation hcNone [elem0] "click" "button" 7 (by decide)

/-! ### C7 and C10: the loose-equality removal test of `attr(key, value)` -/

/-- When the value is loosely equal to the empty string or to null, the
two-argument `attr` removes the attribute from every handle. -/
theorem attr_two_removes (self : List Elem) (k : String) (v : JVal)
    (hv : (jsLooseEmptyStr v || jsLooseNull v) = true) :
    ∃ self', attrMethod self [JVal.jstr k, v] = .ok (self', Ret.rcoll self')
      ∧ ∀ e ∈ self', getAttribute e k = none := by
  refine ⟨self.map (fun e => removeAttribute e (jvalToString (JVal.jstr k))), ?_, ?_⟩
  · simp [attrMethod, hv]
  · intro e he
    obtain ⟨e0, _, rfl⟩ := List.mem_map.mp he
    simp [getAttribute, removeAttribute, jvalToString, alGet_alRemove_self]

/-- When the value is loosely equal to neither the empty string nor null,
the two-argument `attr` sets the attribute on every handle. -/
theorem attr_two_sets (self : List Elem) (k : String) (v : JVal)
    (hv : (jsLooseEmptyStr v || jsLooseNull v) = false) :
    ∃ self', attrMethod self [JVal.jstr k, v] = .ok (self', Ret.rcoll self')
      ∧ ∀ e ∈ self', getAttribute e k = some (jvalToString v) := by
  refine ⟨self.map (fun e =>
    setAttribute e (jvalToString (JVal.jstr k)) (jvalToString v)), ?_, ?_⟩
  · simp [attrMethod, hv]
  · intro e he
    obtain ⟨e0, _, rfl⟩ := List.mem_map.mp he
    simp [getAttribute, setAttribute, jvalToString, alGet_alSet_self]

/-- Counterexample to C7 as stated: the number `0` is neither the empty
string nor null, yet `attr('k', 0)` removes the attribute from the handle
instead of setting it, because the removal test uses loose equality. -/
theorem C7_cex :
    attrMethod [elemK] [JVal.jstr "k", JVal.jnum 0]
      = .ok ([removeAttribute elemK "k"], Ret.rcoll [removeAttribute elemK "k"])
    ∧ getAttribute (removeAttribute elemK "k") "k" = none :=
  ⟨rfl, rfl⟩

/-- C7 amended: `attr(key, value)` removes the attribute from every handle
exactly when the value is loosely equal to the empty string or to null —
which also covers the number `0` and the boolean `false` — and otherwise
(for example, for any non-empty string) sets the attribute on every
handle. -/
theorem C7_attr_loose_removal (self : List Elem) (k : String) (v : JVal) :
    ∃ self', attrMethod self [JVal.jstr k, v] = .ok (self', Ret.rcoll self')
      ∧ ∀ e ∈ self', getAttribute e k =
          (if jsLooseEmptyStr v || jsLooseNull v then none
           else some (jvalToString v)) := by
  by_cases hv : (jsLooseEmptyStr v || jsLooseNull v) = true
  · obtain ⟨self', h1, h2⟩ := attr_two_removes self k v hv
    refine ⟨self', h1, ?_⟩
    intro e he
    rw [hv, if_pos rfl]
    exact h2 e he
  · have hv' : (jsLooseEmptyStr v || jsLooseNull v) = false :=
      Bool.not_eq_true _ ▸ Bool.of_not_eq_true hv
    obtain ⟨self', h1, h2⟩ := attr_two_sets self k v hv'
    refine ⟨self', h1, ?_⟩
    intro e he
    rw [hv', if_neg (by simp)]
    exact h2 e he

/-- Witness for C7 amended at a concrete handle and a non-empty string
value, where the attribute is set. -/
theorem C7_wit :
    ∃ self', attrMethod [elemK] [JVal.jstr "k", JVal.jstr "x"]
        = .ok (self', Ret.rcoll self')
      ∧ ∀ e ∈ self', getAttribute e "k" =
          (if jsLooseEmptyStr (JVal.jstr "x") || jsLooseNull (JVal.jstr "x") then none
           else some (jvalToString (JVal.jstr "x"))) :=
  C7_attr_loose_removal [elemK] "k" (JVal.jstr "x")

/-- C10: `attr(key, value)` with the number `0` or the boolean `false`
removes the attribute from every handle instead of setting it, because the
removal test uses loose equality with the empty string. -/
theorem C10_attr_zero_false_removes (self : List Elem) (k : String) (v : JVal)
    (hv : v = JVal.jnum 0 ∨ v = JVal.jbool false) :
    ∃ self', attrMethod self [JVal.jstr k, v] = .ok (self', Ret.rcoll self')
      ∧ ∀ e ∈ self', getAttribute e k = none := by
  rcases hv with rfl | rfl
  · exact attr_two_removes self k (JVal.jnum 0) rfl
  · exact attr_two_removes self k (JVal.jbool false) rfl

/-- Witness for C10 at a concrete handle and the boolean `false`. -/
theorem C10_wit :
    ∃ self', attrMethod [elemK] [JVal.jstr "k", JVal.jbool false]
        = .ok (self', Ret.rcoll self')
      ∧ ∀ e ∈ self', getAttribute e "k" = none :=
  C10_attr_zero_false_removes [elemK] "k" (JVal.jbool false) (Or.inr rfl)

/-! ### C8: the two-argument form of `toggleClass` is dead code -/

/-- C8: calling `toggleClass` with exactly two arguments leaves every
handle's class membership unchanged and returns the collection — the inner
branch that would apply the forced state re-tests an argument count that
can never hold there, so the two-argument form is unreachable code. -/
theorem C8_toggleClass_two_arg_noop (self : List Elem) (a b : JVal) :
    toggleClassMethod self [a, b] = self := rfl

/-- Witness for C8 at a concrete handle and forced-state arguments. -/
theorem C8_wit : toggleClassMethod [elemK] [JVal.jstr "x", JVal.jbool true] = [elemK] :=
  C8_toggleClass_two_arg_noop [elemK] (JVal.jstr "x") (JVal.jbool true)

/-! ### C9: `is` and `isAny` on the empty collection -/

/-- C9: on the empty collection `is(selector)` is vacuously true while
`isAny(selector)` is false, so the two disagree for every selector and
every host matcher. -/
theorem C9_is_isAny_empty (hostMatches : Elem → String → Bool) (q : String) :
    isMethod hostMatches [] q = true
    ∧ isAnyMethod hostMatches [] q = false
    ∧ isMethod hostMatches [] q ≠ isAnyMethod hostMatches [] q := by
  refine ⟨rfl, rfl, ?_⟩
  simp [isMethod, isAnyMethod]

/-- Witness for C9 at a concrete matcher and selector. -/
theorem C9_wit :
    isMethod hostMatchesFalse [] "div" = true
    ∧ isAnyMethod hostMatchesFalse [] "div" = false
    ∧ isMethod hostMatchesFalse [] "div" ≠ isAnyMethod hostMatchesFalse [] "div" :=
  C9_is_isAny_empty hostMatchesFalse "div"

end Shorthand
